import Mathlib

/-!
# Verification of the Robin bot-project lifecycle frontend

Shallow embedding of the lifecycle-relevant parts of the repository:

* the editor page state and its handlers (`handleStartBot`, `handleStopBot`,
  `fetchLogs`, `checkStatus`, the unmount cleanup) from the editor component;
* the file-tree search `findFileInTree`;
* the anonymous user-id utility `getUserId` from `src/lib/user.ts`;
* a model of the backend Lifecycle Controller, which is described by the
  specification but whose source is not part of this repository snapshot
  (only its frontend callers are).

Stateful React handlers are embedded as explicit state-transition functions:
each handler takes the current component state together with the outcome of
the network request it performs, and returns the updated state (plus any
emitted effect such as an alert or a confetti trigger).
-/

/-- Substring containment on character lists: does the second list start with
the first one?  Mirrors the prefix step of JavaScript `String.includes`. -/
def startsWithChars : List Char → List Char → Bool
  | [], _ => true
  | _ :: _, [] => false
  | p :: ps, c :: cs => p == c && startsWithChars ps cs

/-- Does the character list contain `pat` as a contiguous run?  Mirrors
JavaScript `String.includes` (an empty pattern is always contained). -/
def hasSubChars (pat : List Char) : List Char → Bool
  | [] => startsWithChars pat []
  | c :: cs => startsWithChars pat (c :: cs) || hasSubChars pat cs

/-- `containsSub s pat` embeds the JavaScript call `s.includes(pat)`. -/
def containsSub (s pat : String) : Bool :=
  hasSubChars pat.toList s.toList

/-! ## Editor page state (EditorPage component) -/

/-- The `dockerStatus` React state: `"running" | "not_running" | "unknown"`. -/
inductive DockerStatus where
  | running
  | not_running
  | unknown
deriving DecidableEq, Repr

/-- The `status` field of the backend logs response:
`"success" | "docker_not_running" | "container_not_running" | "error"`. -/
inductive LogsStatus where
  | success
  | docker_not_running
  | container_not_running
  | error
deriving DecidableEq, Repr

/-- The `LogsResponse` payload shape used by the editor page.  The `status`
field is optional in the source (`status?`), hence `Option`. -/
structure LogsResponse where
  logs : String
  status : Option LogsStatus
deriving DecidableEq, Repr

/-- Outcome of a `fetch` call as observed by the handlers: the promise can
reject (network error), resolve with a non-ok HTTP status, or resolve with an
ok status carrying a parsed body. -/
inductive FetchOutcome (α : Type) where
  | netError
  | notOk
  | ok (body : α)
deriving DecidableEq, Repr

/-- The slice of the editor page React state that the lifecycle handlers read
and write.  `confettiLatch` embeds the per-project sessionStorage key
`confetti_{projectId}` (the one-shot readiness latch); `confettiShown` embeds
the `confettiShown` React state. -/
structure EditorState where
  botRunning : Bool
  botLogs : String
  dockerStatus : DockerStatus
  confettiLatch : Bool
  confettiShown : Bool
  showLogs : Bool
deriving DecidableEq, Repr

/-- The two success-login readiness markers scanned for in the log text:
`"Bot logged in as:"` and `"Bot is online and ready!"`. -/
def readinessMarker (logs : String) : Bool :=
  containsSub logs "Bot logged in as:" || containsSub logs "Bot is online and ready!"

/-- Embedding of `fetchLogs`.  Takes the current state and the outcome of the
`GET /logs` request; returns the updated state and whether the confetti
(readiness) signal fired during this poll.

* promise rejection: only `console.error`, no state change;
* non-ok response: early return, no state change;
* `status == "success"`: store the logs; if the latch is unset and a readiness
  marker is present, fire confetti once and set the latch;
* `status == "docker_not_running"`: record engine-down, clear displayed logs;
* `status == "container_not_running"`: reset `botRunning`, clear displayed logs;
* any other status (including `"error"` or a missing status): no state change. -/
def fetchLogs (s : EditorState) (r : FetchOutcome LogsResponse) :
    EditorState × Bool :=
  match r with
  | .netError => (s, false)
  | .notOk => (s, false)
  | .ok resp =>
    match resp.status with
    | some .success =>
      let logs := resp.logs
      let s1 := { s with botLogs := logs }
      if !s1.confettiLatch && readinessMarker logs then
        ({ s1 with confettiLatch := true, confettiShown := true }, true)
      else
        (s1, false)
    | some .docker_not_running =>
      ({ s with dockerStatus := .not_running, botLogs := "" }, false)
    | some .container_not_running =>
      ({ s with botRunning := false, botLogs := "" }, false)
    | _ => (s, false)

/-- Embedding of `checkStatus` (the status probe run when the editor mounts).
A failed or non-ok request marks the engine as down; a `"success"` status marks
the bot running and stores the logs; `"docker_not_running"` marks the engine
down; any other response resets `botRunning` and records the engine as up. -/
def checkStatus (s : EditorState) (r : FetchOutcome LogsResponse) : EditorState :=
  match r with
  | .netError => { s with dockerStatus := .not_running }
  | .notOk => { s with dockerStatus := .not_running }
  | .ok resp =>
    match resp.status with
    | some .success => { s with botRunning := true, botLogs := resp.logs }
    | some .docker_not_running => { s with dockerStatus := .not_running }
    | _ => { s with botRunning := false, dockerStatus := .running }

/-- Embedding of `handleStopBot`.  On an ok response the handler resets
`botRunning`, clears the displayed logs, resets `confettiShown` and removes
the sessionStorage confetti latch; a thrown error (non-ok response or network
failure) is caught and alerted, leaving the state unchanged. -/
def handleStopBot (s : EditorState) (r : FetchOutcome Unit) : EditorState :=
  match r with
  | .ok _ =>
    { s with botRunning := false, botLogs := "", confettiShown := false,
             confettiLatch := false }
  | .notOk => s
  | .netError => s

/-- Embedding of the synchronous state updates of `handleStartBot` (up to its
immediate follow-up `fetchLogs` call, which is composed separately).  The
returned `Bool` is `true` when the handler bailed out with an alert instead of
starting the bot.  If the recorded docker status is `not_running` the handler
returns before issuing any request and before touching any state; a failed
request is caught and alerted without a state change; an ok response records
the bot as running, the engine as up, and opens the logs panel. -/
def handleStartBot (s : EditorState) (r : FetchOutcome Unit) :
    EditorState × Bool :=
  if s.dockerStatus = .not_running then
    (s, true)
  else
    match r with
    | .ok _ =>
      ({ s with botRunning := true, dockerStatus := .running, showLogs := true },
       false)
    | .notOk => (s, true)
    | .netError => (s, true)

/-! ## Editor unmount cleanup -/

/-- Effects of the editor unmount cleanup as seen from outside: whether the
stop request was issued, whether a warning was logged, and whether an error
escaped to the navigating client. -/
structure CleanupEffect where
  stopRequested : Bool
  warnLogged : Bool
  errorPropagated : Bool
deriving DecidableEq, Repr

/-- Embedding of the `useEffect` cleanup of the editor page: it always issues
a `POST /stop` for the project and attaches a rejection handler that logs a
warning (`console.warn`), so no outcome of the stop request ever propagates
to the navigating client. -/
def editorUnmountCleanup (stopOutcome : FetchOutcome Unit) : CleanupEffect :=
  { stopRequested := true,
    warnLogged := match stopOutcome with
      | .netError => true
      | _ => false,
    errorPropagated := false }

/-! ## File tree search (findFileInTree) -/

/-- The `type` field of a backend tree node: `"file" | "dir"`. -/
inductive NodeType where
  | file
  | dir
deriving DecidableEq, Repr

/-- A backend tree node (`BackendNode`): name, path, type, and an optional
child list (`children?`). -/
inductive BackendNode where
  | mk (name : String) (path : String) (ntype : NodeType)
       (children : Option (List BackendNode)) : BackendNode
deriving Repr

def BackendNode.name : BackendNode → String
  | .mk n _ _ _ => n

def BackendNode.path : BackendNode → String
  | .mk _ p _ _ => p

def BackendNode.ntype : BackendNode → NodeType
  | .mk _ _ t _ => t

def BackendNode.children : BackendNode → Option (List BackendNode)
  | .mk _ _ _ c => c

/-- Embedding of `findFileInTree`: walk the node list in order; a file node
whose name or path equals the target is returned immediately; a dir node with
a (present) child list is descended into before moving to the next sibling;
anything else is skipped. -/
def findFileInTree (nodes : List BackendNode) (target : String) :
    Option BackendNode :=
  match nodes with
  | [] => none
  | .mk name path ty children :: rest =>
    if ty = .file ∧ (name = target ∨ path = target) then
      some (.mk name path ty children)
    else if ty = .dir then
      match children with
      | some cs =>
        (match findFileInTree cs target with
         | some found => some found
         | none => findFileInTree rest target)
      | none => findFileInTree rest target
    else
      findFileInTree rest target
termination_by sizeOf nodes
decreasing_by
  all_goals simp_wf
  all_goals omega

/-- Does this node match the search (`type == "file"` and name or path equal
to the target)? -/
def fileMatches (target : String) (n : BackendNode) : Bool :=
  n.ntype == .file && (n.name == target || n.path == target)

/-- The pre-order listing of every node of the forest, descending into each
node's child list (an absent child list contributes nothing). -/
def preorder (nodes : List BackendNode) : List BackendNode :=
  match nodes with
  | [] => []
  | .mk name path ty children :: rest =>
    .mk name path ty children :: (preorder (children.getD []) ++ preorder rest)
termination_by sizeOf nodes
decreasing_by
  all_goals simp_wf
  all_goals cases children <;> simp <;> omega

/-- A single node respects the file-nodes-are-leaves discipline: a file node
carries no non-empty child list. -/
def fileIsLeaf (ty : NodeType) (children : Option (List BackendNode)) : Bool :=
  match ty, children with
  | .file, some (_ :: _) => false
  | _, _ => true

/-- Well-formedness of a backend tree: file nodes are leaves (their optional
child list, when present, is empty).  The backend tree endpoint only attaches
children to directories. -/
def filesAreLeaves (nodes : List BackendNode) : Bool :=
  match nodes with
  | [] => true
  | .mk _ _ ty children :: rest =>
    fileIsLeaf ty children
    && filesAreLeaves (children.getD []) && filesAreLeaves rest
termination_by sizeOf nodes
decreasing_by
  all_goals simp_wf
  all_goals cases children <;> simp <;> omega

/-! ## Anonymous user id (src/lib/user.ts) -/

/-- The localStorage key used by the user-id utility. -/
def USER_ID_KEY : String := "botforge_user_id"

/-- The browser environment as seen by `getUserId`: whether `window` exists,
the current localStorage value under `USER_ID_KEY`, and the sources of
freshness used by `generateUserId` (`Date.now()` and the random suffix). -/
structure BrowserEnv where
  hasWindow : Bool
  stored : Option String
  nowMs : Nat
  randSuffix : String
deriving DecidableEq, Repr

/-- Embedding of `generateUserId`: `user_${Date.now()}_${random suffix}`. -/
def generateUserId (nowMs : Nat) (randSuffix : String) : String :=
  "user_" ++ toString nowMs ++ "_" ++ randSuffix

/-- Embedding of `getUserId`.  Outside a browser (`window` undefined) it
returns the empty string and touches nothing.  In a browser it returns the
stored id when one exists and is non-empty (JavaScript's `!userId` treats the
empty string like a missing value); otherwise it generates a fresh id, stores
it under `USER_ID_KEY`, and returns it.  The result pairs the returned string
with the environment after the call. -/
def getUserId (env : BrowserEnv) : String × BrowserEnv :=
  if env.hasWindow = false then
    ("", env)
  else
    match env.stored with
    | some s =>
      if s = "" then
        let u := generateUserId env.nowMs env.randSuffix
        (u, { env with stored := some u })
      else
        (s, env)
    | none =>
      let u := generateUserId env.nowMs env.randSuffix
      (u, { env with stored := some u })

/-! ## Lifecycle Controller model

The backend Lifecycle Controller is not part of this repository snapshot;
only its frontend callers are.  It is modelled here from the specification
(state machine, error taxonomy, buffer lifecycle). -/

/-- Modelled from the spec: the `state` field of a `ContainerHandle`
(`absent`, `building`, `running`, `exited`, `failed`). -/
inductive CState where
  | absent
  | building
  | running
  | exited
  | failed
deriving DecidableEq, Repr

/-- Modelled from the spec: a `ContainerHandle` record (project id,
engine-assigned runtime id, state). -/
structure ContainerHandle where
  projectId : String
  runtimeId : String
  state : CState
deriving DecidableEq, Repr

/-- Modelled from the spec: the lifecycle error taxonomy relevant to
start/stop (`AlreadyRunningError`, `EngineDownError`, `BuildError`). -/
inductive LcError where
  | alreadyRunning
  | engineDown
  | buildFailed (detail : String)
deriving DecidableEq, Repr

/-- Modelled from the spec: the Lifecycle Controller's own state — the
container handles it has recorded and one LogBuffer per project. -/
structure Controller where
  handles : List ContainerHandle
  buffers : List (String × List String)
deriving DecidableEq, Repr

/-- The recorded state of a project: the state of its recorded handle, or
`absent` when no handle is recorded. -/
def Controller.stateOf (c : Controller) (p : String) : CState :=
  match c.handles.find? (fun h => h.projectId == p) with
  | some h => h.state
  | none => .absent

/-- The LogBuffer contents recorded for a project (empty when none). -/
def Controller.bufferOf (c : Controller) (p : String) : List String :=
  match c.buffers.find? (fun b => b.1 == p) with
  | some b => b.2
  | none => []

/-- Modelled from the spec: `start(projectId)` rejects with
`AlreadyRunningError` if the recorded state is not `absent`, rejects with
`EngineDownError` if the runtime is unreachable — both rejections leave the
controller unchanged — and otherwise performs build+run, beginning a fresh
empty LogBuffer for the run; on success it records a `running` handle, on
build failure it records a `failed` handle and surfaces the captured detail
to the caller.  The result pairs the controller after the call with the
error, if any. -/
def Controller.start (c : Controller) (engineUp : Bool) (buildOk : Bool)
    (buildDetail : String) (p rid : String) : Controller × Option LcError :=
  if c.stateOf p ≠ .absent then
    (c, some .alreadyRunning)
  else if engineUp = false then
    (c, some .engineDown)
  else if buildOk then
    ({ handles := ⟨p, rid, .running⟩ ::
         c.handles.filter (fun h => h.projectId ≠ p),
       buffers := (p, []) :: c.buffers.filter (fun b => b.1 ≠ p) },
     none)
  else
    ({ handles := ⟨p, rid, .failed⟩ ::
         c.handles.filter (fun h => h.projectId ≠ p),
       buffers := (p, []) :: c.buffers.filter (fun b => b.1 ≠ p) },
     some (.buildFailed buildDetail))

/-- Modelled from the spec: `stop(projectId)` always attempts the underlying
stop regardless of recorded state, resets the recorded state to `absent`
(drops the handle) and clears the LogBuffer; stopping an already-stopped or
unknown container is a success, never an error (the error component is always
`none`). -/
def Controller.stop (c : Controller) (p : String) : Controller × Option LcError :=
  ({ handles := c.handles.filter (fun h => h.projectId ≠ p),
     buffers := c.buffers.filter (fun b => b.1 ≠ p) },
   none)

/-- Modelled from the spec: `restart(projectId)` is `stop` followed by
`start`. -/
def Controller.restart (c : Controller) (engineUp : Bool) (buildOk : Bool)
    (buildDetail : String) (p rid : String) : Controller × Option LcError :=
  (Controller.stop c p).1.start engineUp buildOk buildDetail p rid

/-- The controller's handle list mentions each project at most once
(pairwise-distinct project ids). -/
def Controller.handlesDisjoint (c : Controller) : Prop :=
  c.handles.Pairwise (fun a b => a.projectId ≠ b.projectId)

/-- The handles recorded for project `p` that are in a non-`absent` state. -/
def Controller.nonAbsentFor (c : Controller) (p : String) :
    List ContainerHandle :=
  c.handles.filter (fun h => h.projectId == p && !(h.state == .absent))

/-! ## Theorems -/

/-- C2: the readiness signal fires exactly once per run.  Once the latch is
set, no further log poll fires the signal and the latch stays set; when the
latch is unset and a successful poll contains a login marker, the signal fires
and the latch is set; stopping the bot clears the latch, re-arming it for the
next run. -/
theorem readiness_signal_one_shot (s : EditorState) (r : FetchOutcome LogsResponse)
    (l : String) :
    (s.confettiLatch = true →
      (fetchLogs s r).2 = false ∧ (fetchLogs s r).1.confettiLatch = true) ∧
    (s.confettiLatch = false → readinessMarker l = true →
      fetchLogs s (.ok { logs := l, status := some .success }) =
        ({ s with botLogs := l, confettiLatch := true, confettiShown := true },
         true)) ∧
    (handleStopBot s (.ok ())).confettiLatch = false := by
  refine ⟨fun hl => ?_, fun hl hm => ?_, by simp [handleStopBot]⟩
  · cases r with
    | netError => simp [fetchLogs, hl]
    | notOk => simp [fetchLogs, hl]
    | ok resp =>
      match hresp : resp.status with
      | some .success => simp [fetchLogs, hresp, hl]
      | some .docker_not_running => simp [fetchLogs, hresp, hl]
      | some .container_not_running => simp [fetchLogs, hresp, hl]
      | some .error => simp [fetchLogs, hresp, hl]
      | none => simp [fetchLogs, hresp, hl]
  · simp [fetchLogs, hl, hm]

/-- Witness for `readiness_signal_one_shot` at concrete states: a latched
state never re-fires, and an unlatched state fires on a marker-bearing log. -/
theorem readiness_signal_one_shot_witness :
    ((fetchLogs ⟨true, "", .running, true, true, true⟩
        (.ok { logs := "Bot logged in as: demo", status := some .success })).2 = false ∧
      (fetchLogs ⟨true, "", .running, true, true, true⟩
        (.ok { logs := "Bot logged in as: demo", status := some .success })).1.confettiLatch = true) ∧
    fetchLogs ⟨true, "", .running, false, false, true⟩
        (.ok { logs := "Bot logged in as: demo", status := some .success }) =
      ({ botRunning := true, botLogs := "Bot logged in as: demo",
         dockerStatus := .running, confettiLatch := true, confettiShown := true,
         showLogs := true }, true) :=
  ⟨(readiness_signal_one_shot ⟨true, "", .running, true, true, true⟩
      (.ok { logs := "Bot logged in as: demo", status := some .success })
      "Bot logged in as: demo").1 rfl,
   (readiness_signal_one_shot ⟨true, "", .running, false, false, true⟩
      (.ok { logs := "Bot logged in as: demo", status := some .success })
      "Bot logged in as: demo").2.1 rfl (by decide)⟩

/-- C3: the editor unmount cleanup always issues the stop request, never
propagates any failure to the navigating client, and logs a warning when the
stop request fails. -/
theorem unmount_cleanup_best_effort (o : FetchOutcome Unit) :
    (editorUnmountCleanup o).stopRequested = true ∧
    (editorUnmountCleanup o).errorPropagated = false ∧
    (editorUnmountCleanup .netError).warnLogged = true := by
  cases o <;> simp [editorUnmountCleanup]

/-- C5: with the engine recorded as unreachable, `handleStartBot` bails out
with an alert before mutating any state; in the controller model, `start`
against an unreachable engine returns `EngineDownError` with the controller
unchanged. -/
theorem engine_down_start_rejected (s : EditorState) (r : FetchOutcome Unit)
    (c : Controller) (bOk : Bool) (d p rid : String)
    (h : s.dockerStatus = .not_running) :
    handleStartBot s r = (s, true) ∧
    (c.stateOf p = .absent →
      c.start false bOk d p rid = (c, some .engineDown)) := by
  constructor
  · simp [handleStartBot, h]
  · intro habs
    simp [Controller.start, habs]

/-- Witness for `engine_down_start_rejected` at a concrete editor state and an
empty controller. -/
theorem engine_down_start_rejected_witness :
    handleStartBot ⟨false, "", .not_running, false, false, false⟩ (.ok ()) =
      (⟨false, "", .not_running, false, false, false⟩, true) ∧
    (Controller.start ⟨[], []⟩ false true "" "proj-1" "bot-proj-1" =
      (⟨[], []⟩, some .engineDown)) :=
  ⟨(engine_down_start_rejected ⟨false, "", .not_running, false, false, false⟩
      (.ok ()) ⟨[], []⟩ true "" "proj-1" "bot-proj-1" rfl).1,
   (engine_down_start_rejected ⟨false, "", .not_running, false, false, false⟩
      (.ok ()) ⟨[], []⟩ true "" "proj-1" "bot-proj-1" rfl).2 rfl⟩

/-- C6: when the recorded state says the bot is running but a logs or status
query reports the container absent (`container_not_running`), the recorded
running state is reset. -/
theorem orphan_state_self_heal (s : EditorState) (l : String)
    (h : s.botRunning = true) :
    (fetchLogs s (.ok { logs := l, status := some .container_not_running })).1.botRunning
        = false ∧
    (checkStatus s (.ok { logs := l, status := some .container_not_running })).botRunning
        = false := by
  constructor <;> simp [fetchLogs, checkStatus]

/-- Witness for `orphan_state_self_heal` at a concrete running state. -/
theorem orphan_state_self_heal_witness :
    (fetchLogs ⟨true, "old", .running, false, false, true⟩
        (.ok { logs := "", status := some .container_not_running })).1.botRunning
        = false ∧
    (checkStatus ⟨true, "old", .running, false, false, true⟩
        (.ok { logs := "", status := some .container_not_running })).botRunning
        = false :=
  orphan_state_self_heal ⟨true, "old", .running, false, false, true⟩ "" rfl

/-- A concrete editor state used to exercise the logs handling paths. -/
def demoLogsState : EditorState :=
  { botRunning := true, botLogs := "keep", dockerStatus := .running,
    confettiLatch := false, confettiShown := false, showLogs := true }

/-- C4 counterexample: the logs response carries a fourth status value,
`"error"`, distinct from the three outcomes named by the claim, and the
client gives it no handling path at all: `fetchLogs` leaves the state
untouched, and `checkStatus` conflates it with `container_not_running`. -/
theorem logs_fourth_status_unhandled :
    some LogsStatus.error ≠ some LogsStatus.success ∧
    some LogsStatus.error ≠ some LogsStatus.docker_not_running ∧
    some LogsStatus.error ≠ some LogsStatus.container_not_running ∧
    fetchLogs demoLogsState (.ok { logs := "ERROR: boom", status := some .error }) =
      (demoLogsState, false) ∧
    checkStatus demoLogsState (.ok { logs := "ERROR: boom", status := some .error }) =
      checkStatus demoLogsState
        (.ok { logs := "ERROR: boom", status := some .container_not_running }) := by
  decide

/-- C4 amended: the logs response status ranges over four values (and may be
missing); `fetchLogs` maps the three outcomes named by the spec to distinct
handling paths — `docker_not_running` records the engine as down,
`container_not_running` resets the running flag, `success` displays the
fetched logs without touching the running flag or the engine indicator — and
ignores the `error` and missing statuses. -/
theorem logs_outcomes_mapped (s : EditorState) (l : String) :
    fetchLogs s (.ok { logs := l, status := some .docker_not_running }) =
      ({ s with dockerStatus := .not_running, botLogs := "" }, false) ∧
    fetchLogs s (.ok { logs := l, status := some .container_not_running }) =
      ({ s with botRunning := false, botLogs := "" }, false) ∧
    (fetchLogs s (.ok { logs := l, status := some .success })).1.botLogs = l ∧
    (fetchLogs s (.ok { logs := l, status := some .success })).1.botRunning
        = s.botRunning ∧
    (fetchLogs s (.ok { logs := l, status := some .success })).1.dockerStatus
        = s.dockerStatus ∧
    fetchLogs s (.ok { logs := l, status := some .error }) = (s, false) ∧
    fetchLogs s (.ok { logs := l, status := none }) = (s, false) := by
  refine ⟨by simp [fetchLogs], by simp [fetchLogs], ?_, ?_, ?_,
    by simp [fetchLogs], by simp [fetchLogs]⟩ <;>
    · simp only [fetchLogs]
      split <;> simp

/-- A generated user id is never the empty string (it starts with `user_`). -/
theorem generateUserId_ne_empty (n : Nat) (r : String) :
    generateUserId n r ≠ "" := by
  intro h
  have hlen : (generateUserId n r).length = 0 := by rw [h]; rfl
  rw [generateUserId] at hlen
  rw [String.length_append, String.length_append, String.length_append] at hlen
  have h5 : ("user_" : String).length = 5 := rfl
  rw [h5] at hlen
  omega

/-- C9: outside a browser `getUserId` returns the empty string and changes
nothing; in a browser, a first call with no stored id generates one and
persists it, and every call after any call returns the value that call
returned, with the storage unchanged. -/
theorem getUserId_persists (env : BrowserEnv) :
    (env.hasWindow = false → getUserId env = ("", env)) ∧
    (env.hasWindow = true → env.stored = none →
      (getUserId env).1 = generateUserId env.nowMs env.randSuffix ∧
      (getUserId env).2.stored = some (generateUserId env.nowMs env.randSuffix)) ∧
    (env.hasWindow = true →
      getUserId (getUserId env).2 = ((getUserId env).1, (getUserId env).2)) := by
  refine ⟨fun hw => by simp [getUserId, hw], fun hw hs => ?_, fun hw => ?_⟩
  · simp [getUserId, hw, hs]
  · match hs : env.stored with
    | none =>
      simp [getUserId, hw, hs, generateUserId_ne_empty]
    | some s =>
      by_cases hse : s = ""
      · simp [getUserId, hw, hs, hse, generateUserId_ne_empty]
      · simp [getUserId, hw, hs, hse]

/-- Witness for `getUserId_persists`: a non-browser environment yields the
empty id, and in a browser environment a repeated call returns exactly what
the first call returned. -/
theorem getUserId_persists_witness :
    getUserId ⟨false, none, 0, "x"⟩ = ("", ⟨false, none, 0, "x"⟩) ∧
    getUserId (getUserId ⟨true, none, 5, "ab"⟩).2 =
      ((getUserId ⟨true, none, 5, "ab"⟩).1, (getUserId ⟨true, none, 5, "ab"⟩).2) :=
  ⟨(getUserId_persists ⟨false, none, 0, "x"⟩).1 rfl,
   (getUserId_persists ⟨true, none, 5, "ab"⟩).2.2 rfl⟩

/-- C7: the controller's `stop` never reports an error, and stopping twice in
a row yields exactly the same result as stopping once (so a second `stop`, or
a `stop` on a project that never started, is a no-op success). -/
theorem controller_stop_idempotent (c : Controller) (p : String) :
    (c.stop p).2 = none ∧ (c.stop p).1.stop p = c.stop p := by
  refine ⟨rfl, ?_⟩
  simp [Controller.stop, List.filter_filter]

/-- After a `stop`, the recorded state of the stopped project reads
`absent`. -/
theorem stop_stateOf_absent (c : Controller) (p : String) :
    (c.stop p).1.stateOf p = .absent := by
  have hnone : List.find? (fun _ : ContainerHandle => false) c.handles = none := by
    rw [List.find?_eq_none]
    intro x hx
    simp
  simp [Controller.stop, Controller.stateOf, hnone]

/-- After a `stop`, the stopped project's LogBuffer is empty. -/
theorem stop_bufferOf_empty (c : Controller) (p : String) :
    (c.stop p).1.bufferOf p = [] := by
  have hnone : List.find? (fun _ : String × List String => false) c.buffers = none := by
    rw [List.find?_eq_none]
    intro x hx
    simp
  simp [Controller.stop, Controller.bufferOf, hnone]

/-- C8: stopping the bot clears the displayed log content, a controller
`stop` discards the project's LogBuffer, and immediately after a `restart`
the project's LogBuffer is empty — whatever the engine and build outcomes —
so no line of the prior incarnation survives. -/
theorem stop_discards_restart_fresh (s : EditorState) (c : Controller)
    (eU bOk : Bool) (d p rid : String) :
    (handleStopBot s (.ok ())).botLogs = "" ∧
    (c.stop p).1.bufferOf p = [] ∧
    (c.restart eU bOk d p rid).1.bufferOf p = [] := by
  refine ⟨by simp [handleStopBot], stop_bufferOf_empty c p, ?_⟩
  rw [Controller.restart, Controller.start]
  rw [stop_stateOf_absent]
  simp only [ne_eq, not_true_eq_false, if_false, reduceIte]
  by_cases he : eU = false
  · simp [he, stop_bufferOf_empty]
  · by_cases hb : bOk <;>
      simp [he, hb, Controller.bufferOf, List.find?_cons, stop_bufferOf_empty]

/-- A pairwise-distinct-key list keeps at most one element satisfying any
predicate that pins the key to a single value. -/
theorem filter_keyed_length_le_one (l : List ContainerHandle) (q : String)
    (pred : ContainerHandle → Bool)
    (hpred : ∀ x, pred x = true → x.projectId = q)
    (h : l.Pairwise (fun a b => a.projectId ≠ b.projectId)) :
    (l.filter pred).length ≤ 1 := by
  induction l with
  | nil => simp
  | cons a t ih =>
    rw [List.pairwise_cons] at h
    by_cases hp : pred a = true
    · rw [List.filter_cons_of_pos hp]
      have hnil : t.filter pred = [] := by
        rw [List.filter_eq_nil_iff]
        intro x hx hpx
        exact h.1 x hx (by rw [hpred a hp, hpred x hpx])
      simp [hnil]
    · rw [List.filter_cons_of_neg hp]
      exact ih h.2

/-- Under the pairwise-distinct-ids invariant, each project has at most one
non-`absent` recorded handle. -/
theorem disjoint_nonAbsent_le_one (c : Controller) (q : String)
    (h : c.handlesDisjoint) : (c.nonAbsentFor q).length ≤ 1 := by
  refine filter_keyed_length_le_one c.handles q _ ?_ h
  intro x hx
  have := (Bool.and_eq_true _ _).mp hx
  exact of_decide_eq_true (by simpa using this.1)

/-- `start` preserves the pairwise-distinct-ids invariant. -/
theorem start_preserves_disjoint (c : Controller) (eU bOk : Bool)
    (d p rid : String) (h : c.handlesDisjoint) :
    ((c.start eU bOk d p rid).1).handlesDisjoint := by
  rw [Controller.start]
  by_cases h1 : c.stateOf p ≠ .absent
  · simpa [h1] using h
  · by_cases h2 : eU = false
    · simpa [h1, h2] using h
    · have hcons : ∀ st : CState,
          (List.Pairwise (fun a b : ContainerHandle => a.projectId ≠ b.projectId)
            (⟨p, rid, st⟩ :: c.handles.filter (fun x => x.projectId ≠ p))) := by
        intro st
        rw [List.pairwise_cons]
        refine ⟨?_, h.filter _⟩
        intro b hb
        have := (List.mem_filter.mp hb).2
        have hbp : b.projectId ≠ p := of_decide_eq_true this
        exact fun hc => hbp (by rw [← hc])
      by_cases h3 : bOk
      · simpa [h1, h2, h3, Controller.handlesDisjoint] using hcons .running
      · simpa [h1, h2, h3, Controller.handlesDisjoint] using hcons .failed

/-- `stop` preserves the pairwise-distinct-ids invariant. -/
theorem stop_preserves_disjoint (c : Controller) (p : String)
    (h : c.handlesDisjoint) : ((c.stop p).1).handlesDisjoint := by
  simpa [Controller.stop, Controller.handlesDisjoint] using h.filter _

/-- C1: starting from a controller whose handle list records each project at
most once, both `start` and `stop` keep it that way, so every project has at
most one non-`absent` `ContainerHandle` at any time; and `start` on a project
whose recorded state is `running` returns `AlreadyRunningError` with the
controller unchanged — no second container handle is created. -/
theorem single_container_per_project (c : Controller) (eU bOk : Bool)
    (d p rid : String) (h : c.handlesDisjoint) :
    ((c.start eU bOk d p rid).1.handlesDisjoint ∧
      ∀ q, ((c.start eU bOk d p rid).1.nonAbsentFor q).length ≤ 1) ∧
    (c.stateOf p = .running →
      c.start eU bOk d p rid = (c, some .alreadyRunning)) ∧
    ((c.stop p).1.handlesDisjoint ∧
      ∀ q, ((c.stop p).1.nonAbsentFor q).length ≤ 1) := by
  have hs := start_preserves_disjoint c eU bOk d p rid h
  have ht := stop_preserves_disjoint c p h
  refine ⟨⟨hs, fun q => disjoint_nonAbsent_le_one _ q hs⟩, fun hrun => ?_,
    ht, fun q => disjoint_nonAbsent_le_one _ q ht⟩
  rw [Controller.start]
  simp [hrun]

/-- Witness for `single_container_per_project` at a controller already running
`proj-1`: a second `start` is rejected with `AlreadyRunningError` and the
recorded handles are unchanged. -/
theorem single_container_per_project_witness :
    (Controller.start ⟨[⟨"proj-1", "bot-proj-1", .running⟩], [("proj-1", [])]⟩
        true true "" "proj-1" "bot-proj-1b" =
      (⟨[⟨"proj-1", "bot-proj-1", .running⟩], [("proj-1", [])]⟩,
        some .alreadyRunning)) ∧
    ∀ q, ((Controller.stop ⟨[⟨"proj-1", "bot-proj-1", .running⟩], [("proj-1", [])]⟩
        "proj-1").1.nonAbsentFor q).length ≤ 1 :=
  ⟨(single_container_per_project
      ⟨[⟨"proj-1", "bot-proj-1", .running⟩], [("proj-1", [])]⟩
      true true "" "proj-1" "bot-proj-1b"
      (by simp [Controller.handlesDisjoint])).2.1 (by decide),
   (single_container_per_project
      ⟨[⟨"proj-1", "bot-proj-1", .running⟩], [("proj-1", [])]⟩
      true true "" "proj-1" "bot-proj-1b"
      (by simp [Controller.handlesDisjoint])).2.2.2⟩

/-- Unpacking `filesAreLeaves` at a cons cell: the head's children are empty
when the head is a file, and both the child forest and the remaining siblings
are again well-formed. -/
theorem filesAreLeaves_cons_elim (name path : String) (ty : NodeType)
    (ch : Option (List BackendNode)) (rest : List BackendNode)
    (h : filesAreLeaves (.mk name path ty ch :: rest) = true) :
    (ty = .file → ch.getD [] = []) ∧
      filesAreLeaves (ch.getD []) = true ∧ filesAreLeaves rest = true := by
  rw [filesAreLeaves] at h
  rw [Bool.and_eq_true, Bool.and_eq_true] at h
  obtain ⟨⟨hleaf, hch⟩, hrest⟩ := h
  refine ⟨?_, hch, hrest⟩
  intro hf
  subst hf
  cases ch with
  | none => rfl
  | some cs =>
    cases cs with
    | nil => rfl
    | cons c cs' => simp [fileIsLeaf] at hleaf

/-- Size bookkeeping: the tail of a node list is smaller than the list. -/
theorem sizeOf_tail_lt (x : BackendNode) (rest : List BackendNode) :
    sizeOf rest < sizeOf (x :: rest) := by
  simp only [List.cons.sizeOf_spec]
  omega

/-- Size bookkeeping: a node's child forest is smaller than any list headed
by that node. -/
theorem sizeOf_children_lt (name path : String) (ty : NodeType)
    (cs rest : List BackendNode) :
    sizeOf cs < sizeOf (BackendNode.mk name path ty (some cs) :: rest) := by
  simp only [List.cons.sizeOf_spec, BackendNode.mk.sizeOf_spec,
    Option.some.sizeOf_spec]
  omega

/-- Unfolding of `findFileInTree` at a cons cell. -/
theorem findFileInTree_cons (name path : String) (ty : NodeType)
    (ch : Option (List BackendNode)) (rest : List BackendNode) (target : String) :
    findFileInTree (.mk name path ty ch :: rest) target =
      if ty = .file ∧ (name = target ∨ path = target) then
        some (.mk name path ty ch)
      else if ty = .dir then
        match ch with
        | some cs =>
          (match findFileInTree cs target with
           | some found => some found
           | none => findFileInTree rest target)
        | none => findFileInTree rest target
      else
        findFileInTree rest target := by
  rw [findFileInTree.eq_def]

/-- Unfolding of `preorder` at a cons cell. -/
theorem preorder_cons (name path : String) (ty : NodeType)
    (ch : Option (List BackendNode)) (rest : List BackendNode) :
    preorder (.mk name path ty ch :: rest) =
      .mk name path ty ch :: (preorder (ch.getD []) ++ preorder rest) := by
  rw [preorder.eq_def]

/-- On well-formed trees, `findFileInTree` computes the first match of the
pre-order listing: the search equals `List.find?` of `fileMatches` over
`preorder`.  Proved by strong induction on the size of the forest. -/
theorem find_eq_preorder_aux (k : Nat) :
    ∀ (nodes : List BackendNode) (target : String), sizeOf nodes ≤ k →
      filesAreLeaves nodes = true →
      findFileInTree nodes target = (preorder nodes).find? (fileMatches target) := by
  induction k with
  | zero =>
    intro nodes target hk hwf
    cases nodes with
    | nil => simp [findFileInTree, preorder]
    | cons x rest =>
      exfalso
      have := sizeOf_tail_lt x rest
      omega
  | succ k ih =>
    intro nodes target hk hwf
    cases nodes with
    | nil => simp [findFileInTree, preorder]
    | cons node rest =>
      obtain ⟨name, path, ty, ch⟩ := node
      obtain ⟨hleaf, hch, hrest⟩ :=
        filesAreLeaves_cons_elim name path ty ch rest hwf
      have hkrest : sizeOf rest ≤ k := by
        have := sizeOf_tail_lt (BackendNode.mk name path ty ch) rest
        omega
      have ihrest := ih rest target hkrest hrest
      by_cases hm : ty = .file ∧ (name = target ∨ path = target)
      · have hfm : fileMatches target (.mk name path ty ch) = true := by
          simp [fileMatches, BackendNode.ntype, BackendNode.name,
            BackendNode.path, hm.1]
          rcases hm.2 with h2 | h2
          · exact Or.inl h2
          · exact Or.inr h2
        rw [findFileInTree_cons, preorder_cons, if_pos hm,
          List.find?_cons_of_pos _ hfm]
      · have hfm : fileMatches target (.mk name path ty ch) = false := by
          simp only [fileMatches, BackendNode.ntype, BackendNode.name,
            BackendNode.path]
          rw [not_and_or] at hm
          rcases hm with h1 | h2
          · have hb : (ty == NodeType.file) = false := by simpa using h1
            simp [hb]
          · rw [not_or] at h2
            have hn : (name == target) = false := by simpa using h2.1
            have hp : (path == target) = false := by simpa using h2.2
            simp [hn, hp]
        rw [findFileInTree_cons, preorder_cons, if_neg hm,
          List.find?_cons_of_neg _ (by simp [hfm]), List.find?_append]
        cases hty : ty with
        | dir =>
          rw [if_pos rfl]
          cases hchv : ch with
          | none =>
            simp only [Option.getD]
            rw [show preorder [] = [] from by simp [preorder]]
            simpa using ihrest
          | some cs =>
            have hkcs : sizeOf cs ≤ k := by
              have := sizeOf_children_lt name path ty cs rest
              rw [hchv] at hk
              omega
            have ihcs := ih cs target hkcs (by
              have hx := hch
              rw [hchv] at hx
              simpa using hx)
            simp only [Option.getD]
            rw [← ihcs, ← ihrest]
            cases hfind : findFileInTree cs target <;> simp [hfind]
        | file =>
          rw [if_neg (by simp)]
          have hnil : ch.getD [] = [] := hleaf hty
          rw [show preorder (ch.getD []) = [] from by rw [hnil]; simp [preorder]]
          simpa using ihrest

/-- C10: on a tree whose file nodes are leaves, `findFileInTree` returns the
first file node of the pre-order traversal whose name or path equals the
target; it returns `none` exactly when no file node of the tree matches; and
any returned node is a matching file node (directories are only descended
into, never returned). -/
theorem findFileInTree_first_preorder_match (nodes : List BackendNode)
    (target : String) (h : filesAreLeaves nodes = true) :
    findFileInTree nodes target = (preorder nodes).find? (fileMatches target) ∧
    (findFileInTree nodes target = none ↔
      ∀ n ∈ preorder nodes, fileMatches target n = false) ∧
    (∀ n, findFileInTree nodes target = some n →
      n.ntype = .file ∧ (n.name = target ∨ n.path = target)) := by
  have heq := find_eq_preorder_aux (sizeOf nodes) nodes target le_rfl h
  refine ⟨heq, ?_, ?_⟩
  · rw [heq, List.find?_eq_none]
    constructor
    · intro hall n hn
      have := hall n hn
      simpa using this
    · intro hall n hn
      simp [hall n hn]
  · intro n hf
    rw [heq] at hf
    have hmatch := List.find?_some hf
    rw [fileMatches, Bool.and_eq_true] at hmatch
    refine ⟨by simpa using hmatch.1, ?_⟩
    rcases Bool.or_eq_true _ _ |>.mp hmatch.2 with h2 | h2
    · exact Or.inl (by simpa using h2)
    · exact Or.inr (by simpa using h2)

/-- A concrete two-level tree used to exercise the search. -/
def demoTree : List BackendNode :=
  [.mk "src" "src" .dir (some [.mk "bot.py" "src/bot.py" .file none]),
   .mk "main.py" "main.py" .file none]

/-- Witness for `findFileInTree_first_preorder_match` on a concrete
well-formed tree. -/
theorem findFileInTree_first_preorder_match_witness :
    filesAreLeaves demoTree = true ∧
    (findFileInTree demoTree "bot.py" =
        (preorder demoTree).find? (fileMatches "bot.py") ∧
      (findFileInTree demoTree "bot.py" = none ↔
        ∀ n ∈ preorder demoTree, fileMatches "bot.py" n = false) ∧
      (∀ n, findFileInTree demoTree "bot.py" = some n →
        n.ntype = .file ∧ (n.name = "bot.py" ∨ n.path = "bot.py"))) :=
  ⟨by simp [demoTree, filesAreLeaves, fileIsLeaf],
   findFileInTree_first_preorder_match demoTree "bot.py"
     (by simp [demoTree, filesAreLeaves, fileIsLeaf])⟩
